import Mathlib

/-!
Verification of the Mergington High School activities service
(src/src/app.py) against its natural-language specification.

The MongoDB collection is embedded as a list of documents; each document
may lack any field (Mongo imposes no schema), hence the `Option` fields.
`find_one` returns the first document whose stored name equals the query,
`updateFirst` applies the update operator to that same document, matching
`update_one` with a name filter.  `$push` appends to the array (creating
it when absent); `$pull` removes every matching element.
-/

/-- A stored activity document.  Every field is optional because the data
layer imposes no schema; the API fills defaults when reading. -/
structure Doc where
  name : Option String
  description : Option String
  schedule : Option String
  max_participants : Option Nat
  participants : Option (List String)

deriving instance DecidableEq, Repr for Doc

/-- Outcome of an API call: a success message, or an HTTP error status
with a detail string (as raised via HTTPException). -/
inductive ApiResult where
  | ok (message : String)
  | err (status : Nat) (detail : String)

deriving instance DecidableEq, Repr for ApiResult

/-- `activities_col.find_one({"name": n})`: the first document whose
`name` field is present and equals `n`. -/
def find_one : List Doc → String → Option Doc
  | [], _ => none
  | d :: rest, n => if d.name = some n then some d else find_one rest n

/-- `activities_col.update_one({"name": n}, u)`: apply `f` to the first
document whose `name` field equals `n`, leaving the rest unchanged. -/
def updateFirst : List Doc → String → (Doc → Doc) → List Doc
  | [], _, _ => []
  | d :: rest, n, f => if d.name = some n then f d :: rest else d :: updateFirst rest n f

/-- The `$push` update operator on `participants`: append the email at the
end of the array, creating the array when the field is absent. -/
def pushParticipant (d : Doc) (email : String) : Doc :=
  { d with participants := some (d.participants.getD [] ++ [email]) }

/-- The `$pull` update operator on `participants`: remove every element
equal to the email; a document without the field is left unchanged. -/
def pullParticipant (d : Doc) (email : String) : Doc :=
  { d with participants := d.participants.map (fun ps => ps.filter (fun x => decide (x ≠ email))) }

/-- POST /activities/{activity_name}/signup.  Returns the API outcome and
the collection state after the request. -/
def signup_for_activity (col : List Doc) (activity_name email : String) :
    ApiResult × List Doc :=
  match find_one col activity_name with
  | none => (ApiResult.err 404 "Activity not found", col)
  | some activity =>
      if email ∈ activity.participants.getD [] then
        (ApiResult.err 400 "Student is already signed up", col)
      else if (activity.participants.getD []).length ≥ activity.max_participants.getD 0 then
        (ApiResult.err 400 "No spots available", col)
      else
        (ApiResult.ok ("Signed up " ++ email ++ " for " ++ activity_name),
         updateFirst col activity_name (fun d => pushParticipant d email))

/-- DELETE /activities/{activity_name}/unregister.  Returns the API
outcome and the collection state after the request. -/
def unregister_from_activity (col : List Doc) (activity_name email : String) :
    ApiResult × List Doc :=
  match find_one col activity_name with
  | none => (ApiResult.err 404 "Activity not found", col)
  | some activity =>
      if email ∈ activity.participants.getD [] then
        (ApiResult.ok ("Unregistered " ++ email ++ " from " ++ activity_name),
         updateFirst col activity_name (fun d => pullParticipant d email))
      else
        (ApiResult.err 400 "Student is not signed up for this activity", col)

/-- One entry of the GET /activities response: exactly the four fields the
handler emits for each named activity. -/
structure ActivityOut where
  description : String
  schedule : String
  max_participants : Nat
  participants : List String

deriving instance DecidableEq, Repr for ActivityOut

/-- The per-document response body built by `get_activities`, with absent
fields defaulted exactly as the handler's `d.get(key, default)` calls do. -/
def docFields (d : Doc) : ActivityOut :=
  { description := d.description.getD ""
    schedule := d.schedule.getD ""
    max_participants := d.max_participants.getD 0
    participants := d.participants.getD [] }

/-- Python dict assignment `result[name] = v`: replace the value in place
when the key exists, otherwise append the new binding at the end. -/
def dictInsert (m : List (String × ActivityOut)) (k : String) (v : ActivityOut) :
    List (String × ActivityOut) :=
  if m.any (fun p => p.1 = k) then
    m.map (fun p => if p.1 = k then (k, v) else p)
  else
    m ++ [(k, v)]

/-- The loop body of GET /activities: walk the stored documents, skip any
whose name is absent or empty, and insert the shaped entry into the
accumulated mapping. -/
def get_activities_from (acc : List (String × ActivityOut)) :
    List Doc → List (String × ActivityOut)
  | [] => acc
  | d :: rest =>
      match d.name with
      | none => get_activities_from acc rest
      | some n =>
          if n = "" then get_activities_from acc rest
          else get_activities_from (dictInsert acc n (docFields d)) rest

/-- GET /activities: a mapping from activity name to its shaped fields. -/
def get_activities (col : List Doc) : List (String × ActivityOut) :=
  get_activities_from [] col

/-- The INITIAL_ACTIVITIES literal of app.py: the nine seed documents. -/
def INITIAL_ACTIVITIES : List Doc :=
  [ { name := some "Chess Club"
      description := some "Learn strategies and compete in chess tournaments"
      schedule := some "Fridays, 3:30 PM - 5:00 PM"
      max_participants := some 12
      participants := some ["michael@mergington.edu", "daniel@mergington.edu"] }
  , { name := some "Programming Class"
      description := some "Learn programming fundamentals and build software projects"
      schedule := some "Tuesdays and Thursdays, 3:30 PM - 4:30 PM"
      max_participants := some 20
      participants := some ["emma@mergington.edu", "sophia@mergington.edu"] }
  , { name := some "Gym Class"
      description := some "Physical education and sports activities"
      schedule := some "Mondays, Wednesdays, Fridays, 2:00 PM - 3:00 PM"
      max_participants := some 30
      participants := some ["john@mergington.edu", "olivia@mergington.edu"] }
  , { name := some "Soccer Team"
      description := some "Join the school soccer team and compete in matches"
      schedule := some "Tuesdays and Thursdays, 4:00 PM - 5:30 PM"
      max_participants := some 22
      participants := some ["liam@mergington.edu", "noah@mergington.edu"] }
  , { name := some "Basketball Team"
      description := some "Practice and play basketball with the school team"
      schedule := some "Wednesdays and Fridays, 3:30 PM - 5:00 PM"
      max_participants := some 15
      participants := some ["ava@mergington.edu", "mia@mergington.edu"] }
  , { name := some "Art Club"
      description := some "Explore your creativity through painting and drawing"
      schedule := some "Thursdays, 3:30 PM - 5:00 PM"
      max_participants := some 15
      participants := some ["amelia@mergington.edu", "harper@mergington.edu"] }
  , { name := some "Drama Club"
      description := some "Act, direct, and produce plays and performances"
      schedule := some "Mondays and Wednesdays, 4:00 PM - 5:30 PM"
      max_participants := some 20
      participants := some ["ella@mergington.edu", "scarlett@mergington.edu"] }
  , { name := some "Math Club"
      description := some "Solve challenging problems and participate in math competitions"
      schedule := some "Tuesdays, 3:30 PM - 4:30 PM"
      max_participants := some 10
      participants := some ["james@mergington.edu", "benjamin@mergington.edu"] }
  , { name := some "Debate Team"
      description := some "Develop public speaking and argumentation skills"
      schedule := some "Fridays, 4:00 PM - 5:30 PM"
      max_participants := some 12
      participants := some ["charlotte@mergington.edu", "henry@mergington.edu"] }
  ]

/-- The startup seeding check: `count_documents({}) == 0` gates an
`insert_many(INITIAL_ACTIVITIES)`, which appends the seed documents. -/
def seed_activities_if_empty (col : List Doc) : List Doc :=
  if col.length = 0 then col ++ INITIAL_ACTIVITIES else col

/-- Iterate the startup initializer a given number of times. -/
def iterateSeed : Nat → List Doc → List Doc
  | 0, col => col
  | k + 1, col => iterateSeed k (seed_activities_if_empty col)

/-- The two state-mutating API requests, as abstract operations. -/
inductive AOp where
  | signup (activity_name email : String)
  | unregister (activity_name email : String)

/-- The collection state after handling one request. -/
def applyOp (col : List Doc) : AOp → List Doc
  | AOp.signup n e => (signup_for_activity col n e).2
  | AOp.unregister n e => (unregister_from_activity col n e).2

/-- The collection state after handling a sequence of requests. -/
def runOps (col : List Doc) : List AOp → List Doc
  | [] => col
  | op :: rest => runOps (applyOp col op) rest

/-- Each email appears at most once in any single activity's list. -/
def NodupInv (col : List Doc) : Prop :=
  ∀ d ∈ col, (d.participants.getD []).Nodup

/-- Every activity's roster is within its capacity. -/
def CapInv (col : List Doc) : Prop :=
  ∀ d ∈ col, (d.participants.getD []).length ≤ d.max_participants.getD 0

/-- Modelled from the spec: the nine-activity catalog of section 4.2,
transcribed from the spec's table and description list rather than from
the source, for comparison with `INITIAL_ACTIVITIES`. -/
def specCatalog : List Doc :=
  [ { name := some "Chess Club"
      description := some "Learn strategies and compete in chess tournaments"
      schedule := some "Fridays, 3:30 PM - 5:00 PM"
      max_participants := some 12
      participants := some ["michael@mergington.edu", "daniel@mergington.edu"] }
  , { name := some "Programming Class"
      description := some "Learn programming fundamentals and build software projects"
      schedule := some "Tuesdays and Thursdays, 3:30 PM - 4:30 PM"
      max_participants := some 20
      participants := some ["emma@mergington.edu", "sophia@mergington.edu"] }
  , { name := some "Gym Class"
      description := some "Physical education and sports activities"
      schedule := some "Mondays, Wednesdays, Fridays, 2:00 PM - 3:00 PM"
      max_participants := some 30
      participants := some ["john@mergington.edu", "olivia@mergington.edu"] }
  , { name := some "Soccer Team"
      description := some "Join the school soccer team and compete in matches"
      schedule := some "Tuesdays and Thursdays, 4:00 PM - 5:30 PM"
      max_participants := some 22
      participants := some ["liam@mergington.edu", "noah@mergington.edu"] }
  , { name := some "Basketball Team"
      description := some "Practice and play basketball with the school team"
      schedule := some "Wednesdays and Fridays, 3:30 PM - 5:00 PM"
      max_participants := some 15
      participants := some ["ava@mergington.edu", "mia@mergington.edu"] }
  , { name := some "Art Club"
      description := some "Explore your creativity through painting and drawing"
      schedule := some "Thursdays, 3:30 PM - 5:00 PM"
      max_participants := some 15
      participants := some ["amelia@mergington.edu", "harper@mergington.edu"] }
  , { name := some "Drama Club"
      description := some "Act, direct, and produce plays and performances"
      schedule := some "Mondays and Wednesdays, 4:00 PM - 5:30 PM"
      max_participants := some 20
      participants := some ["ella@mergington.edu", "scarlett@mergington.edu"] }
  , { name := some "Math Club"
      description := some "Solve challenging problems and participate in math competitions"
      schedule := some "Tuesdays, 3:30 PM - 4:30 PM"
      max_participants := some 10
      participants := some ["james@mergington.edu", "benjamin@mergington.edu"] }
  , { name := some "Debate Team"
      description := some "Develop public speaking and argumentation skills"
      schedule := some "Fridays, 4:00 PM - 5:30 PM"
      max_participants := some 12
      participants := some ["charlotte@mergington.edu", "henry@mergington.edu"] }
  ]

/-- A one-document collection whose single activity is full, with its lone
participant already signed up; used to exercise the error branches. -/
def tinyFullDoc : Doc :=
  { name := some "Tiny Club"
    description := some "small"
    schedule := some "never"
    max_participants := some 1
    participants := some ["solo@mergington.edu"] }

/-- A document with no name field; GET /activities must skip it. -/
def namelessDoc : Doc :=
  { name := none
    description := some "ghost"
    schedule := none
    max_participants := some 5
    participants := none }

/-- A name occurs as a key of the GET /activities response mapping. -/
def hasKey (m : List (String × ActivityOut)) (k : String) : Prop :=
  ∃ v, (k, v) ∈ m

/-- Either no document matches the name and `updateFirst` is a no-op, or
the collection splits around the first match, which `find_one` returns
and `updateFirst` rewrites in place. -/
theorem find_one_updateFirst_decomp (col : List Doc) (n : String) (f : Doc → Doc) :
    (find_one col n = none ∧ updateFirst col n f = col) ∨
    ∃ pre a post, col = pre ++ a :: post ∧ (∀ p ∈ pre, p.name ≠ some n) ∧
      a.name = some n ∧ find_one col n = some a ∧
      updateFirst col n f = pre ++ f a :: post := by
  induction col with
  | nil => exact Or.inl ⟨rfl, rfl⟩
  | cons d rest ih =>
    by_cases h : d.name = some n
    · refine Or.inr ⟨[], d, rest, rfl, ?_, h, ?_, ?_⟩
      · intro p hp; cases hp
      · simp [find_one, h]
      · simp [updateFirst, h]
    · rcases ih with ⟨h1, h2⟩ | ⟨pre, a, post, hcol, hpre, hname, hfind, hupd⟩
      · exact Or.inl ⟨by simp [find_one, h, h1], by simp [updateFirst, h, h2]⟩
      · refine Or.inr ⟨d :: pre, a, post, by simp [hcol], ?_, hname, ?_, ?_⟩
        · intro p hp
          rcases List.mem_cons.mp hp with rfl | hp2
          · exact h
          · exact hpre p hp2
        · simp [find_one, h, hfind]
        · simp [updateFirst, h, hupd]

/-- `find_one` skips a non-matching prefix and returns the first match. -/
theorem find_one_append (pre : List Doc) (a : Doc) (post : List Doc) (n : String)
    (hpre : ∀ p ∈ pre, p.name ≠ some n) (ha : a.name = some n) :
    find_one (pre ++ a :: post) n = some a := by
  induction pre with
  | nil => simp [find_one, ha]
  | cons p rest ih =>
    have hp : p.name ≠ some n := hpre p (List.mem_cons_self p rest)
    simp only [List.cons_append, find_one, hp, if_false]
    exact ih (fun q hq => hpre q (List.mem_cons_of_mem p hq))

/-- Removing an element that was never in the list changes nothing. -/
theorem filter_ne_of_not_mem (ps : List String) (e : String) (h : e ∉ ps) :
    ps.filter (fun x => decide (x ≠ e)) = ps := by
  apply List.filter_eq_self.mpr
  intro a ha
  simp only [decide_eq_true_eq]
  exact fun heq => h (heq ▸ ha)

/-- C1: when the activity exists, the email is already a participant, and
the roster is at or above capacity, signup fails with 400 "Student is
already signed up" (never "No spots available") and leaves the
collection unchanged: the duplicate check precedes the capacity check. -/
theorem signup_duplicate_wins_over_capacity (col : List Doc) (n e : String) (a : Doc)
    (hfind : find_one col n = some a)
    (hmem : e ∈ a.participants.getD [])
    (hcap : a.max_participants.getD 0 ≤ (a.participants.getD []).length) :
    signup_for_activity col n e = (ApiResult.err 400 "Student is already signed up", col) := by
  simp [signup_for_activity, hfind, hmem]

/-- Witness for C1 on a concrete full activity with a duplicate email. -/
theorem signup_duplicate_wins_over_capacity_witness :
    signup_for_activity [tinyFullDoc] "Tiny Club" "solo@mergington.edu" =
      (ApiResult.err 400 "Student is already signed up", [tinyFullDoc]) :=
  signup_duplicate_wins_over_capacity [tinyFullDoc] "Tiny Club" "solo@mergington.edu"
    tinyFullDoc (by decide) (by decide) (by decide)

/-- C2: when the activity exists, the email is not yet a participant, and
the roster is strictly below capacity, signup succeeds with the message
"Signed up {email} for {activity_name}" and appends the email at the end
of that activity's participants list. -/
theorem signup_success_appends (col : List Doc) (n e : String) (a : Doc)
    (hfind : find_one col n = some a)
    (hmem : e ∉ a.participants.getD [])
    (hcap : (a.participants.getD []).length < a.max_participants.getD 0) :
    (signup_for_activity col n e).1 = ApiResult.ok ("Signed up " ++ e ++ " for " ++ n) ∧
    ∃ a2, find_one (signup_for_activity col n e).2 n = some a2 ∧
      a2.participants.getD [] = a.participants.getD [] ++ [e] := by
  have hnotge : ¬ (a.participants.getD []).length ≥ a.max_participants.getD 0 :=
    not_le.mpr hcap
  rcases find_one_updateFirst_decomp col n (fun d => pushParticipant d e) with
    ⟨h1, _⟩ | ⟨pre, b, post, hcol, hpre, hname, hfind2, hupd⟩
  · rw [h1] at hfind; cases hfind
  · obtain rfl : b = a := by rw [hfind2] at hfind; exact Option.some.inj hfind
    refine ⟨by simp [signup_for_activity, hfind, hmem, hnotge], pushParticipant b e, ?_, ?_⟩
    · have h2 : (signup_for_activity col n e).2 = pre ++ pushParticipant b e :: post := by
        simp [signup_for_activity, hfind, hmem, hnotge, hupd]
      rw [h2]
      exact find_one_append pre (pushParticipant b e) post n hpre (by simp [pushParticipant, hname])
    · simp [pushParticipant]

/-- Witness for C2: a fresh email joins Chess Club in the seeded data. -/
theorem signup_success_appends_witness :
    (signup_for_activity INITIAL_ACTIVITIES "Chess Club" "alice@mergington.edu").1 =
      ApiResult.ok ("Signed up " ++ "alice@mergington.edu" ++ " for " ++ "Chess Club") ∧
    ∃ a2, find_one (signup_for_activity INITIAL_ACTIVITIES "Chess Club" "alice@mergington.edu").2
        "Chess Club" = some a2 ∧
      a2.participants.getD [] =
        ["michael@mergington.edu", "daniel@mergington.edu"] ++ ["alice@mergington.edu"] :=
  signup_success_appends INITIAL_ACTIVITIES "Chess Club" "alice@mergington.edu"
    { name := some "Chess Club"
      description := some "Learn strategies and compete in chess tournaments"
      schedule := some "Fridays, 3:30 PM - 5:00 PM"
      max_participants := some 12
      participants := some ["michael@mergington.edu", "daniel@mergington.edu"] }
    (by decide) (by decide) (by decide)

/-- C3: unregister returns 404 "Activity not found" when no activity
matches; 400 "Student is not signed up for this activity" when the email
is absent from the roster (collection unchanged in both cases); otherwise
it succeeds with message "Unregistered {email} from {activity_name}" and
the email is removed from that activity's participants list. -/
theorem unregister_spec (col : List Doc) (n e : String) :
    (find_one col n = none →
      unregister_from_activity col n e = (ApiResult.err 404 "Activity not found", col)) ∧
    (∀ a, find_one col n = some a → e ∉ a.participants.getD [] →
      unregister_from_activity col n e =
        (ApiResult.err 400 "Student is not signed up for this activity", col)) ∧
    (∀ a, find_one col n = some a → e ∈ a.participants.getD [] →
      (unregister_from_activity col n e).1 =
        ApiResult.ok ("Unregistered " ++ e ++ " from " ++ n) ∧
      ∃ a2, find_one (unregister_from_activity col n e).2 n = some a2 ∧
        a2.participants.getD [] =
          (a.participants.getD []).filter (fun x => decide (x ≠ e)) ∧
        e ∉ a2.participants.getD []) := by
  refine ⟨?_, ?_, ?_⟩
  · intro h
    simp [unregister_from_activity, h]
  · intro a hfind hmem
    simp [unregister_from_activity, hfind, hmem]
  · intro a hfind hmem
    rcases find_one_updateFirst_decomp col n (fun d => pullParticipant d e) with
      ⟨h1, _⟩ | ⟨pre, b, post, hcol, hpre, hname, hfind2, hupd⟩
    · rw [h1] at hfind; cases hfind
    · obtain rfl : b = a := by rw [hfind2] at hfind; exact Option.some.inj hfind
      have h2 : (unregister_from_activity col n e).2 = pre ++ pullParticipant b e :: post := by
        simp [unregister_from_activity, hfind, hmem, hupd]
      refine ⟨by simp [unregister_from_activity, hfind, hmem], pullParticipant b e, ?_, ?_, ?_⟩
      · rw [h2]
        exact find_one_append pre (pullParticipant b e) post n hpre
          (by simp [pullParticipant, hname])
      · cases hps : b.participants with
        | none => rw [hps] at hmem; simp at hmem
        | some ps => simp [pullParticipant, hps]
      · cases hps : b.participants with
        | none => rw [hps] at hmem; simp at hmem
        | some ps => simp [pullParticipant, hps, List.mem_filter]

/-- Witness for C3: the 404 branch, the not-signed-up branch, and the
successful removal branch, each on a concrete one-document collection. -/
theorem unregister_spec_witness :
    unregister_from_activity [tinyFullDoc] "Nope" "x@mergington.edu" =
      (ApiResult.err 404 "Activity not found", [tinyFullDoc]) ∧
    unregister_from_activity [tinyFullDoc] "Tiny Club" "ghost@mergington.edu" =
      (ApiResult.err 400 "Student is not signed up for this activity", [tinyFullDoc]) ∧
    ((unregister_from_activity [tinyFullDoc] "Tiny Club" "solo@mergington.edu").1 =
      ApiResult.ok ("Unregistered " ++ "solo@mergington.edu" ++ " from " ++ "Tiny Club") ∧
    ∃ a2, find_one (unregister_from_activity [tinyFullDoc] "Tiny Club" "solo@mergington.edu").2
        "Tiny Club" = some a2 ∧
      a2.participants.getD [] =
        (tinyFullDoc.participants.getD []).filter
          (fun x => decide (x ≠ "solo@mergington.edu")) ∧
      "solo@mergington.edu" ∉ a2.participants.getD []) :=
  ⟨(unregister_spec [tinyFullDoc] "Nope" "x@mergington.edu").1 (by decide),
   (unregister_spec [tinyFullDoc] "Tiny Club" "ghost@mergington.edu").2.1 tinyFullDoc
     (by decide) (by decide),
   (unregister_spec [tinyFullDoc] "Tiny Club" "solo@mergington.edu").2.2 tinyFullDoc
     (by decide) (by decide)⟩

/-- C4: a signup or unregister request that ends in an error response
leaves the stored collection exactly as it was. -/
theorem failed_request_preserves_collection (col : List Doc) (n e : String)
    (s : Nat) (msg : String) :
    ((signup_for_activity col n e).1 = ApiResult.err s msg →
      (signup_for_activity col n e).2 = col) ∧
    ((unregister_from_activity col n e).1 = ApiResult.err s msg →
      (unregister_from_activity col n e).2 = col) := by
  constructor
  · intro h
    cases hf : find_one col n with
    | none => simp [signup_for_activity, hf]
    | some a =>
      by_cases hm : e ∈ a.participants.getD []
      · simp [signup_for_activity, hf, hm]
      · by_cases hc : (a.participants.getD []).length ≥ a.max_participants.getD 0
        · simp [signup_for_activity, hf, hm, hc]
        · exfalso
          simp [signup_for_activity, hf, hm, hc] at h
  · intro h
    cases hf : find_one col n with
    | none => simp [unregister_from_activity, hf]
    | some a =>
      by_cases hm : e ∈ a.participants.getD []
      · exfalso
        simp [unregister_from_activity, hf, hm] at h
      · simp [unregister_from_activity, hf, hm]

/-- Witness for C4: failed requests against a nonexistent activity leave
the one-document collection untouched. -/
theorem failed_request_preserves_collection_witness :
    (signup_for_activity [tinyFullDoc] "Nope" "x@mergington.edu").2 = [tinyFullDoc] ∧
    (unregister_from_activity [tinyFullDoc] "Nope" "x@mergington.edu").2 = [tinyFullDoc] :=
  ⟨(failed_request_preserves_collection [tinyFullDoc] "Nope" "x@mergington.edu"
      404 "Activity not found").1 (by decide),
   (failed_request_preserves_collection [tinyFullDoc] "Nope" "x@mergington.edu"
      404 "Activity not found").2 (by decide)⟩

/-- C5: the startup initializer inserts the seed data exactly when the
collection is empty; on a non-empty collection it writes nothing, and
iterating it any number of times leaves the collection unchanged. -/
theorem seeding_idempotent (col : List Doc) (k : Nat) :
    (col.length = 0 → seed_activities_if_empty col = INITIAL_ACTIVITIES) ∧
    (col.length ≠ 0 → seed_activities_if_empty col = col) ∧
    (col.length ≠ 0 → iterateSeed k col = col) := by
  have hstep : col.length ≠ 0 → seed_activities_if_empty col = col := by
    intro h
    simp [seed_activities_if_empty, h]
  refine ⟨?_, hstep, ?_⟩
  · intro h
    have hnil : col = [] := List.length_eq_zero.mp h
    subst hnil
    simp [seed_activities_if_empty]
  · intro h
    induction k with
    | zero => rfl
    | succ m ih => simp [iterateSeed, hstep h, ih]

/-- Witness for C5: seeding an empty store yields the catalog, and two
runs against a one-document store change nothing. -/
theorem seeding_idempotent_witness :
    seed_activities_if_empty [] = INITIAL_ACTIVITIES ∧
    iterateSeed 2 [tinyFullDoc] = [tinyFullDoc] :=
  ⟨(seeding_idempotent [] 2).1 rfl,
   (seeding_idempotent [tinyFullDoc] 2).2.2 (by decide)⟩

/-- C6: the seed data set is exactly the nine literal activities of the
spec's catalog, verbatim and in order. -/
theorem initial_activities_match_spec_catalog :
    INITIAL_ACTIVITIES = specCatalog ∧ INITIAL_ACTIVITIES.length = 9 :=
  ⟨rfl, rfl⟩

/-- C9: one signup or unregister step, from any collection in which every
activity's roster is within its capacity, leaves every roster within its
capacity: signup writes only below capacity, unregister never lengthens
a roster. -/
theorem ops_preserve_capacity (col : List Doc) (op : AOp)
    (hinv : CapInv col) : CapInv (applyOp col op) := by
  cases op with
  | signup n e =>
    show CapInv (signup_for_activity col n e).2
    rcases find_one_updateFirst_decomp col n (fun d => pushParticipant d e) with
      ⟨h1, _⟩ | ⟨pre, a, post, hcol, hpre, hname, hfind, hupd⟩
    · simpa [signup_for_activity, h1] using hinv
    · by_cases hm : e ∈ a.participants.getD []
      · simpa [signup_for_activity, hfind, hm] using hinv
      · by_cases hc : (a.participants.getD []).length ≥ a.max_participants.getD 0
        · simpa [signup_for_activity, hfind, hm, hc] using hinv
        · have h2 : (signup_for_activity col n e).2 = pre ++ pushParticipant a e :: post := by
            simp [signup_for_activity, hfind, hm, hc, hupd]
          rw [h2]
          intro d hd
          rcases List.mem_append.mp hd with hdpre | hdrest
          · exact hinv d (by rw [hcol]; exact List.mem_append_left _ hdpre)
          · rcases List.mem_cons.mp hdrest with rfl | hdpost
            · have hlt := not_le.mp hc
              simp only [pushParticipant, Option.getD_some, List.length_append,
                List.length_singleton]
              omega
            · exact hinv d (by rw [hcol]; exact List.mem_append_right _ (List.mem_cons_of_mem _ hdpost))
  | unregister n e =>
    show CapInv (unregister_from_activity col n e).2
    rcases find_one_updateFirst_decomp col n (fun d => pullParticipant d e) with
      ⟨h1, _⟩ | ⟨pre, a, post, hcol, hpre, hname, hfind, hupd⟩
    · simpa [unregister_from_activity, h1] using hinv
    · by_cases hm : e ∈ a.participants.getD []
      · have h2 : (unregister_from_activity col n e).2 = pre ++ pullParticipant a e :: post := by
          simp [unregister_from_activity, hfind, hm, hupd]
        rw [h2]
        intro d hd
        rcases List.mem_append.mp hd with hdpre | hdrest
        · exact hinv d (by rw [hcol]; exact List.mem_append_left _ hdpre)
        · rcases List.mem_cons.mp hdrest with rfl | hdpost
          · have ha : (a.participants.getD []).length ≤ a.max_participants.getD 0 :=
              hinv a (by rw [hcol]; exact List.mem_append_right _ (List.mem_cons_self _ _))
            cases hps : a.participants with
            | none => simp [pullParticipant, hps]
            | some ps =>
              rw [hps] at ha
              simp only [pullParticipant, hps, Option.map_some, Option.getD_some] at *
              exact le_trans (List.length_filter_le _ _) ha
          · exact hinv d (by rw [hcol]; exact List.mem_append_right _ (List.mem_cons_of_mem _ hdpost))
      · simpa [unregister_from_activity, hfind, hm] using hinv

/-- Witness for C9: one concrete signup step from a capacity-respecting
one-document collection stays within capacity. -/
theorem ops_preserve_capacity_witness :
    CapInv (applyOp [tinyFullDoc] (AOp.signup "Tiny Club" "new@mergington.edu")) :=
  ops_preserve_capacity [tinyFullDoc] (AOp.signup "Tiny Club" "new@mergington.edu")
    (by show ∀ d ∈ [tinyFullDoc], (d.participants.getD []).length ≤ d.max_participants.getD 0
        decide)

/-- `updateFirst` skips a non-matching prefix and rewrites the first
matching document in place. -/
theorem updateFirst_append (pre : List Doc) (a : Doc) (post : List Doc) (n : String)
    (f : Doc → Doc) (hpre : ∀ p ∈ pre, p.name ≠ some n) (ha : a.name = some n) :
    updateFirst (pre ++ a :: post) n f = pre ++ f a :: post := by
  induction pre with
  | nil => simp [updateFirst, ha]
  | cons p rest ih =>
    have hp : p.name ≠ some n := hpre p (List.mem_cons_self p rest)
    simp only [List.cons_append, updateFirst, hp, if_false]
    exact congrArg (fun l => p :: l) (ih (fun q hq => hpre q (List.mem_cons_of_mem p hq)))

/-- One signup or unregister step preserves the per-activity
no-duplicate-email property. -/
theorem applyOp_preserves_nodup (col : List Doc) (op : AOp)
    (hinv : NodupInv col) : NodupInv (applyOp col op) := by
  cases op with
  | signup n e =>
    show NodupInv (signup_for_activity col n e).2
    rcases find_one_updateFirst_decomp col n (fun d => pushParticipant d e) with
      ⟨h1, _⟩ | ⟨pre, a, post, hcol, hpre, hname, hfind, hupd⟩
    · simpa [signup_for_activity, h1] using hinv
    · by_cases hm : e ∈ a.participants.getD []
      · simpa [signup_for_activity, hfind, hm] using hinv
      · by_cases hc : (a.participants.getD []).length ≥ a.max_participants.getD 0
        · simpa [signup_for_activity, hfind, hm, hc] using hinv
        · have h2 : (signup_for_activity col n e).2 = pre ++ pushParticipant a e :: post := by
            simp [signup_for_activity, hfind, hm, hc, hupd]
          rw [h2]
          intro d hd
          rcases List.mem_append.mp hd with hdpre | hdrest
          · exact hinv d (by rw [hcol]; exact List.mem_append_left _ hdpre)
          · rcases List.mem_cons.mp hdrest with rfl | hdpost
            · have ha : (a.participants.getD []).Nodup :=
                hinv a (by rw [hcol]; exact List.mem_append_right _ (List.mem_cons_self _ _))
              simp only [pushParticipant, Option.getD_some]
              simp [List.nodup_append, ha, hm]
            · exact hinv d
                (by rw [hcol]; exact List.mem_append_right _ (List.mem_cons_of_mem _ hdpost))
  | unregister n e =>
    show NodupInv (unregister_from_activity col n e).2
    rcases find_one_updateFirst_decomp col n (fun d => pullParticipant d e) with
      ⟨h1, _⟩ | ⟨pre, a, post, hcol, hpre, hname, hfind, hupd⟩
    · simpa [unregister_from_activity, h1] using hinv
    · by_cases hm : e ∈ a.participants.getD []
      · have h2 : (unregister_from_activity col n e).2 = pre ++ pullParticipant a e :: post := by
          simp [unregister_from_activity, hfind, hm, hupd]
        rw [h2]
        intro d hd
        rcases List.mem_append.mp hd with hdpre | hdrest
        · exact hinv d (by rw [hcol]; exact List.mem_append_left _ hdpre)
        · rcases List.mem_cons.mp hdrest with rfl | hdpost
          · have ha : (a.participants.getD []).Nodup :=
              hinv a (by rw [hcol]; exact List.mem_append_right _ (List.mem_cons_self _ _))
            cases hps : a.participants with
            | none => simp [pullParticipant, hps]
            | some ps =>
              rw [hps] at ha
              simp only [Option.getD_some] at ha
              simp only [pullParticipant, hps, Option.map_some, Option.getD_some]
              exact ha.filter _
          · exact hinv d
              (by rw [hcol]; exact List.mem_append_right _ (List.mem_cons_of_mem _ hdpost))
      · simpa [unregister_from_activity, hfind, hm] using hinv

/-- C8: in every state reachable from the seeded initial data by any
sequence of signup and unregister requests, each email appears at most
once in any single activity's participants list. -/
theorem reachable_states_nodup (ops : List AOp) :
    NodupInv (runOps (seed_activities_if_empty []) ops) := by
  have hseed : NodupInv (seed_activities_if_empty []) := by
    show ∀ d ∈ seed_activities_if_empty [], (d.participants.getD []).Nodup
    decide
  suffices h : ∀ (l : List AOp) (col : List Doc), NodupInv col → NodupInv (runOps col l) from
    h ops _ hseed
  intro l
  induction l with
  | nil => intro col h; exact h
  | cons op rest ih => intro col h; exact ih _ (applyOp_preserves_nodup col op h)

/-- C10: a successful signup immediately followed by an unregister of the
same email on the same activity restores that activity's participants
list to exactly its original value. -/
theorem signup_unregister_roundtrip (col : List Doc) (n e : String) (a : Doc)
    (hfind : find_one col n = some a)
    (hmem : e ∉ a.participants.getD [])
    (hcap : (a.participants.getD []).length < a.max_participants.getD 0) :
    ∃ a2, find_one (unregister_from_activity
        (signup_for_activity col n e).2 n e).2 n = some a2 ∧
      a2.participants.getD [] = a.participants.getD [] := by
  have hnotge : ¬ (a.participants.getD []).length ≥ a.max_participants.getD 0 :=
    not_le.mpr hcap
  rcases find_one_updateFirst_decomp col n (fun d => pushParticipant d e) with
    ⟨h1, _⟩ | ⟨pre, b, post, hcol, hpre, hname, hfind2, hupd⟩
  · rw [h1] at hfind; cases hfind
  · obtain rfl : b = a := by rw [hfind2] at hfind; exact Option.some.inj hfind
    have hcol1 : (signup_for_activity col n e).2 = pre ++ pushParticipant b e :: post := by
      simp [signup_for_activity, hfind, hmem, hnotge, hupd]
    have hname1 : (pushParticipant b e).name = some n := by simp [pushParticipant, hname]
    have hfind1 : find_one (signup_for_activity col n e).2 n = some (pushParticipant b e) := by
      rw [hcol1]
      exact find_one_append pre (pushParticipant b e) post n hpre hname1
    have hmem1 : e ∈ (pushParticipant b e).participants.getD [] := by
      simp [pushParticipant]
    have hcol2 : (unregister_from_activity (signup_for_activity col n e).2 n e).2 =
        pre ++ pullParticipant (pushParticipant b e) e :: post := by
      rw [hcol1]
      have hf : find_one (pre ++ pushParticipant b e :: post) n = some (pushParticipant b e) :=
        find_one_append pre (pushParticipant b e) post n hpre hname1
      simp [unregister_from_activity, hf, hmem1,
        updateFirst_append pre (pushParticipant b e) post n
          (fun d => pullParticipant d e) hpre hname1]
    refine ⟨pullParticipant (pushParticipant b e) e, ?_, ?_⟩
    · rw [hcol2]
      exact find_one_append pre _ post n hpre (by simp [pullParticipant, pushParticipant, hname])
    · simp [pullParticipant, pushParticipant, List.filter_append,
        filter_ne_of_not_mem _ _ hmem]
      exact fun x hx h => hmem (h ▸ hx)

/-- Witness for C10: signing alice up for Chess Club in the seeded data
and unregistering her restores the original two-member roster. -/
theorem signup_unregister_roundtrip_witness :
    ∃ a2, find_one (unregister_from_activity
        (signup_for_activity INITIAL_ACTIVITIES "Chess Club" "alice@mergington.edu").2
        "Chess Club" "alice@mergington.edu").2 "Chess Club" = some a2 ∧
      a2.participants.getD [] = ["michael@mergington.edu", "daniel@mergington.edu"] :=
  signup_unregister_roundtrip INITIAL_ACTIVITIES "Chess Club" "alice@mergington.edu"
    { name := some "Chess Club"
      description := some "Learn strategies and compete in chess tournaments"
      schedule := some "Fridays, 3:30 PM - 5:00 PM"
      max_participants := some 12
      participants := some ["michael@mergington.edu", "daniel@mergington.edu"] }
    (by decide) (by decide) (by decide)

/-- An entry of `dictInsert m k v` is an entry of `m` or the new binding. -/
theorem mem_dictInsert {m : List (String × ActivityOut)} {k : String} {v : ActivityOut}
    {p : String × ActivityOut} (h : p ∈ dictInsert m k v) : p ∈ m ∨ p = (k, v) := by
  unfold dictInsert at h
  split at h
  · rcases List.mem_map.mp h with ⟨q, hq, hqe⟩
    by_cases hqk : q.1 = k
    · right
      rw [if_pos hqk] at hqe
      exact hqe.symm
    · left
      rw [if_neg hqk] at hqe
      exact hqe ▸ hq
  · rcases List.mem_append.mp h with h1 | h2
    · exact Or.inl h1
    · exact Or.inr (List.mem_singleton.mp h2)

/-- `dictInsert` makes its own key present. -/
theorem hasKey_dictInsert_self (m : List (String × ActivityOut)) (k : String)
    (v : ActivityOut) : hasKey (dictInsert m k v) k := by
  unfold hasKey dictInsert
  split
  case isTrue hany =>
    rcases List.any_eq_true.mp hany with ⟨q, hq, hqk⟩
    have hqk2 : q.1 = k := of_decide_eq_true hqk
    exact ⟨v, List.mem_map.mpr ⟨q, hq, by rw [if_pos hqk2]⟩⟩
  case isFalse =>
    exact ⟨v, List.mem_append_right _ (List.mem_singleton.mpr rfl)⟩

/-- `dictInsert` never drops a key that was already present. -/
theorem hasKey_dictInsert_mono (m : List (String × ActivityOut)) (k k2 : String)
    (v : ActivityOut) (h : hasKey m k2) : hasKey (dictInsert m k v) k2 := by
  rcases h with ⟨w, hw⟩
  unfold dictInsert
  split
  case isTrue hany =>
    by_cases hk : k2 = k
    · subst hk
      exact ⟨v, List.mem_map.mpr ⟨(k2, w), hw, by simp⟩⟩
    · exact ⟨w, List.mem_map.mpr ⟨(k2, w), hw, by simp [hk]⟩⟩
  case isFalse =>
    exact ⟨w, List.mem_append_left _ hw⟩

/-- Every entry produced by the GET /activities loop beyond the initial
accumulator has a nonempty key, names a stored document, and carries that
document's defaulted fields. -/
theorem mem_get_activities_from (l : List Doc) :
    ∀ (acc : List (String × ActivityOut)) (p : String × ActivityOut),
      p ∈ get_activities_from acc l →
      p ∈ acc ∨ (p.1 ≠ "" ∧ ∃ d ∈ l, d.name = some p.1 ∧ p.2 = docFields d) := by
  induction l with
  | nil => exact fun acc p h => Or.inl h
  | cons d rest ih =>
    intro acc p h
    have propagate :
        p ∈ acc ∨ (p.1 ≠ "" ∧ ∃ d2 ∈ rest, d2.name = some p.1 ∧ p.2 = docFields d2) →
        p ∈ acc ∨ (p.1 ≠ "" ∧ ∃ d2 ∈ d :: rest, d2.name = some p.1 ∧ p.2 = docFields d2) := by
      rintro (hacc | ⟨hne, d2, hd2, hn2, hv2⟩)
      · exact Or.inl hacc
      · exact Or.inr ⟨hne, d2, List.mem_cons_of_mem d hd2, hn2, hv2⟩
    cases hn : d.name with
    | none =>
      simp only [get_activities_from, hn] at h
      exact propagate (ih acc p h)
    | some nm =>
      simp only [get_activities_from, hn] at h
      by_cases he : nm = ""
      · rw [if_pos he] at h
        exact propagate (ih acc p h)
      · rw [if_neg he] at h
        rcases ih (dictInsert acc nm (docFields d)) p h with hin | hrest
        · rcases mem_dictInsert hin with hacc | hpair
          · exact Or.inl hacc
          · obtain rfl : p = (nm, docFields d) := hpair
            exact Or.inr ⟨he, d, List.mem_cons_self d rest, hn, rfl⟩
        · exact propagate (Or.inr hrest)

/-- The GET /activities loop never drops a key of the accumulator. -/
theorem hasKey_get_activities_from_mono (l : List Doc) :
    ∀ (acc : List (String × ActivityOut)) (k : String),
      hasKey acc k → hasKey (get_activities_from acc l) k := by
  induction l with
  | nil => exact fun acc k h => h
  | cons d rest ih =>
    intro acc k h
    cases hn : d.name with
    | none =>
      simp only [get_activities_from, hn]
      exact ih acc k h
    | some nm =>
      simp only [get_activities_from, hn]
      by_cases he : nm = ""
      · rw [if_pos he]
        exact ih acc k h
      · rw [if_neg he]
        exact ih _ k (hasKey_dictInsert_mono acc nm k (docFields d) h)

/-- Every stored document with a nonempty name contributes its key to the
GET /activities result. -/
theorem hasKey_get_activities_from_complete (l : List Doc) :
    ∀ (acc : List (String × ActivityOut)), ∀ d ∈ l, ∀ nm, d.name = some nm → nm ≠ "" →
      hasKey (get_activities_from acc l) nm := by
  induction l with
  | nil => intro acc d hd; cases hd
  | cons d rest ih =>
    intro acc d2 hd2 nm hnm hne
    rcases List.mem_cons.mp hd2 with rfl | hd2rest
    · simp only [get_activities_from, hnm, if_neg hne]
      exact hasKey_get_activities_from_mono rest _ nm
        (hasKey_dictInsert_self acc nm (docFields d2))
    · cases hn : d.name with
      | none =>
        simp only [get_activities_from, hn]
        exact ih acc d2 hd2rest nm hnm hne
      | some nm2 =>
        simp only [get_activities_from, hn]
        by_cases he : nm2 = ""
        · rw [if_pos he]
          exact ih acc d2 hd2rest nm hnm hne
        · rw [if_neg he]
          exact ih _ d2 hd2rest nm hnm hne

/-- C7: every entry of GET /activities has a nonempty activity name as
its key and carries exactly the four fields of some stored document with
that name, with absent fields defaulted to empty string, empty string, 0
and the empty list; every stored document with a nonempty name appears
as a key, and documents with an absent or empty name are omitted. -/
theorem get_activities_spec (col : List Doc) :
    (∀ p ∈ get_activities col,
      p.1 ≠ "" ∧ ∃ d ∈ col, d.name = some p.1 ∧ p.2 = docFields d) ∧
    (∀ d ∈ col, ∀ nm, d.name = some nm → nm ≠ "" → hasKey (get_activities col) nm) := by
  constructor
  · intro p hp
    rcases mem_get_activities_from col [] p hp with h | h
    · cases h
    · exact h
  · intro d hd nm hnm hne
    exact hasKey_get_activities_from_complete col [] d hd nm hnm hne

/-- Witness for C7: on a store holding a nameless document and one named
document, the single response entry is the named one with its fields, and
its key is present. -/
theorem get_activities_spec_witness :
    (("Tiny Club" : String) ≠ "" ∧ ∃ d ∈ [namelessDoc, tinyFullDoc],
      d.name = some "Tiny Club" ∧ docFields tinyFullDoc = docFields d) ∧
    hasKey (get_activities [namelessDoc, tinyFullDoc]) "Tiny Club" :=
  ⟨(get_activities_spec [namelessDoc, tinyFullDoc]).1
      ("Tiny Club", docFields tinyFullDoc) (by decide),
   (get_activities_spec [namelessDoc, tinyFullDoc]).2 tinyFullDoc (by decide)
      "Tiny Club" (by decide) (by decide)⟩
